import Mathlib

/-!
# Verification of the `etl.py` job-postings ETL pipeline

Shallow embedding of `src/airflow/dags/etl.py` (an Airflow DAG with four
tasks: `create_tables`, `extract`, `transform`, `load`, plus the helper
`clean_description`).  Strings are modelled as `List Char`; the filesystem
and the SQLite sink are modelled as explicit state records threaded through
the stage functions.
-/

set_option autoImplicit false

namespace Etl

/-! ## Whitespace normalisation (`clean_description`, etl.py lines 136-137)

`clean_description(description)` is `re.sub(r'\s+', ' ', description.strip())`:
first strip leading and trailing whitespace, then replace every maximal run
of whitespace characters by a single space.  Whitespace here is the ASCII
whitespace class matched by both `str.strip()` and `\s`:
space, tab, newline, carriage return, vertical tab, form feed. -/

/-- The ASCII whitespace class of Python's `\s` and `str.strip()`. -/
def isWS (c : Char) : Bool :=
  c == ' ' || c == '\t' || c == '\n' || c == '\r' || c == '\x0b' || c == '\x0c'

/-- Remove trailing whitespace (the right half of Python's `str.strip()`),
written structurally: a character is kept iff some non-whitespace character
survives at or after it. -/
def stripTrail : List Char → List Char
  | [] => []
  | c :: rest =>
    if isWS c && (stripTrail rest).isEmpty then [] else c :: stripTrail rest

/-- Python's `str.strip()`: drop leading whitespace, then trailing whitespace. -/
def stripWS (l : List Char) : List Char :=
  stripTrail (l.dropWhile isWS)

/-- The left-to-right scan of `re.sub(r'\s+', ' ', ·)`: `inRun` records
whether the previous character belonged to a whitespace run that has already
emitted its single replacement space. -/
def collapseAux : Bool → List Char → List Char
  | _, [] => []
  | inRun, c :: rest =>
    if isWS c then
      if inRun then collapseAux true rest else ' ' :: collapseAux true rest
    else
      c :: collapseAux false rest

/-- `re.sub(r'\s+', ' ', l)`: every maximal whitespace run becomes one space. -/
def collapseWS (l : List Char) : List Char :=
  collapseAux false l

/-- `clean_description` from etl.py line 136-137:
`re.sub(r'\s+', ' ', description.strip())`. -/
def clean_description (l : List Char) : List Char :=
  collapseWS (stripWS l)

/-- The specification's reading of the normalisation, stated independently of
the implementation's order of operations: replace every maximal whitespace run
by a single space, and remove leading and trailing whitespace from the result. -/
def specClean (l : List Char) : List Char :=
  stripWS (collapseWS l)

/-- `headOkay l`: `l` does not start with a whitespace character. -/
def headOkay : List Char → Bool
  | [] => true
  | c :: _ => !isWS c

/-- A string is `collapsed` when every whitespace character in it is a single
space immediately followed by a non-whitespace character (or the end):
exactly the strings `re.sub(r'\s+', ' ', ·)` leaves unchanged. -/
def collapsed : List Char → Bool
  | [] => true
  | c :: rest => (!isWS c || (c == ' ' && headOkay rest)) && collapsed rest

/-- `clean_description` on Lean strings (a string is its list of characters). -/
def clean_descriptionStr (s : String) : String :=
  String.mk (clean_description s.data)

/-! ## Schema Manager (`TABLE_CREATION_QUERIES` lines 10-60, `create_tables` lines 62-66)

A table is modelled by its name and the list of column names its DDL declares;
the sink schema is the list of tables present, in creation order.
`CREATE TABLE IF NOT EXISTS` is a no-op (and no error) when a table of that
name already exists, which is how SQLite executes the statements of
`TABLE_CREATION_QUERIES`. -/

structure TableDef where
  name : String
  cols : List String
deriving DecidableEq

/-- The six DDL statements of `TABLE_CREATION_QUERIES`, by table name and
declared columns, in the order the Python list gives them. -/
def TABLE_CREATION_QUERIES : List TableDef :=
  [⟨"job", ["id", "title", "industry", "description", "employment_type", "date_posted"]⟩,
   ⟨"company", ["id", "job_id", "name", "link"]⟩,
   ⟨"education", ["id", "job_id", "required_credential"]⟩,
   ⟨"experience", ["id", "job_id", "months_of_experience", "seniority_level"]⟩,
   ⟨"salary", ["id", "job_id", "currency", "min_value", "max_value", "unit"]⟩,
   ⟨"location", ["id", "job_id", "country", "locality", "region", "postal_code",
                 "street_address", "latitude", "longitude"]⟩]

abbrev Schema := List TableDef

def hasTable (s : Schema) (n : String) : Bool :=
  s.any (fun t => t.name == n)

/-- `sqlite_hook.run` on one `CREATE TABLE IF NOT EXISTS` statement. -/
def createTableIfNotExists (s : Schema) (t : TableDef) : Schema :=
  if hasTable s t.name then s else s ++ [t]

/-- `create_tables` (etl.py lines 62-66): run each DDL statement in order. -/
def create_tables (s : Schema) : Schema :=
  TABLE_CREATION_QUERIES.foldl createTableIfNotExists s

/-! ## Extractor (`extract`, etl.py lines 68-85)

The filesystem is a list of directories plus an association of file paths to
contents; `open(path, 'w')` overwrites any previous file at the same path.
A CSV cell is either a Python `str` or some non-`str` value carried together
with its `str()` rendering; a row maps column names to cells.  A missing
source file makes `pd.read_csv` raise `FileNotFoundError`, modelled by the
source being `none`. -/

structure FS where
  dirs : List String
  files : List (String × String)
deriving DecidableEq

/-- `os.makedirs(d, exist_ok=True)`: create `d` if absent, never an error. -/
def makedirs (fs : FS) (d : String) : FS :=
  if fs.dirs.contains d then fs else { fs with dirs := fs.dirs ++ [d] }

/-- `open(p, 'w').write(c)`: replace any previous content of `p` with `c`. -/
def setFile (files : List (String × String)) (p c : String) : List (String × String) :=
  files.filter (fun q => !(q.1 == p)) ++ [(p, c)]

/-- A pandas cell: a `str` value, or a non-`str` value carried with the text
`str()` would render it as. -/
inductive Cell where
  | str (s : String)
  | other (text : String)
deriving DecidableEq

/-- Lines 80-81: `if not isinstance(context, str): context = str(context)`.
A `str` cell is kept; any other cell becomes its `str()` rendering. -/
def coerceContext : Cell → String
  | Cell.str s => s
  | Cell.other text => text

abbrev Row := List (String × Cell)

/-- `row.get(col, default)` on a pandas row: the cell under `col`, or the
default when the row has no such column. -/
def rowGet (row : Row) (col : String) (dflt : Cell) : Cell :=
  match row.find? (fun q => q.1 == col) with
  | some q => q.2
  | none => dflt

def extracted_dir : String := "staging/extracted"

/-- `os.path.join(extracted_dir, f"job_<index>.txt")`. -/
def jobTxtPath (i : Nat) : String :=
  extracted_dir ++ "/job_" ++ toString i ++ ".txt"

/-- The `for index, row in df.iterrows()` loop of `extract` (lines 78-84),
threading the filesystem and recording each artifact written, in order. -/
def extractLoop (fs : FS) (i : Nat) : List Row → FS × List (String × String)
  | [] => (fs, [])
  | row :: rest =>
    let content := coerceContext (rowGet row "context" (Cell.str ""))
    let p := jobTxtPath i
    let fs' : FS := { fs with files := setFile fs.files p content }
    let r := extractLoop fs' (i + 1) rest
    (r.1, (p, content) :: r.2)

structure ExtractResult where
  fs : FS
  written : List (String × String)
  rowsReported : Option Nat
deriving DecidableEq

/-- `extract` (etl.py lines 68-85): create the staging directory, read the
source CSV (`none` models `FileNotFoundError`, whose handler logs and
returns early, reporting no row count), then write one text artifact per row.
`rowsReported = some n` models reaching the final `print` of `len(df)`. -/
def extract (source : Option (List Row)) (fs : FS) : ExtractResult :=
  let fs1 := makedirs fs extracted_dir
  match source with
  | none => { fs := fs1, written := [], rowsReported := none }
  | some rows =>
    let r := extractLoop fs1 0 rows
    { fs := r.1, written := r.2, rowsReported := some rows.length }

/-! ## Transformer record shape (`transform`, etl.py lines 87-134)

The structured artifact written by `transform` is a JSON object with six
sections.  `RecordArtifact` models an arbitrary such JSON file (any section
may be absent, as `load`'s `KeyError` path requires); `Record` is a fully
populated record, which is the only shape `transform` ever writes. -/

structure JobSection where
  title : String
  industry : String
  description : String
  employment_type : String
  date_posted : String
deriving DecidableEq

structure CompanySection where
  name : String
  link : String
deriving DecidableEq

structure EducationSection where
  required_credential : String
deriving DecidableEq

structure ExperienceSection where
  months_of_experience : String
  seniority_level : String
deriving DecidableEq

structure SalarySection where
  currency : String
  min_value : String
  max_value : String
  unit : String
deriving DecidableEq

structure LocationSection where
  country : String
  locality : String
  region : String
  postal_code : String
  street_address : String
  latitude : String
  longitude : String
deriving DecidableEq

structure Record where
  job : JobSection
  company : CompanySection
  education : EducationSection
  experience : ExperienceSection
  salary : SalarySection
  location : LocationSection
deriving DecidableEq

structure RecordArtifact where
  job : Option JobSection
  company : Option CompanySection
  education : Option EducationSection
  experience : Option ExperienceSection
  salary : Option SalarySection
  location : Option LocationSection
deriving DecidableEq

def Record.toArtifact (r : Record) : RecordArtifact :=
  { job := some r.job, company := some r.company, education := some r.education,
    experience := some r.experience, salary := some r.salary,
    location := some r.location }

/-- An artifact has all six expected sections. -/
def wellFormed (a : RecordArtifact) : Bool :=
  a.job.isSome && a.company.isSome && a.education.isSome
    && a.experience.isSome && a.salary.isSome && a.location.isSome

/-- The `transformed_data` dictionary of `transform` (lines 97-131): literal
placeholder strings in every field except `description`, which is the cleaned
artifact content. -/
def transformRecord (context : String) : Record :=
  { job := { title := "job_title", industry := "job_industry",
             description := clean_descriptionStr context,
             employment_type := "job_employment_type",
             date_posted := "job_date_posted" },
    company := { name := "company_name", link := "company_linkedin_link" },
    education := { required_credential := "job_required_credential" },
    experience := { months_of_experience := "job_months_of_experience",
                    seniority_level := "seniority_level" },
    salary := { currency := "salary_currency", min_value := "salary_min_value",
                max_value := "salary_max_value", unit := "salary_unit" },
    location := { country := "country", locality := "locality", region := "region",
                  postal_code := "postal_code", street_address := "street_address",
                  latitude := "latitude", longitude := "longitude" } }

/-! ## Loader (`load`, etl.py lines 139-186)

The SQLite sink is modelled with one append-only row list per table.  The
model never deletes, so `INTEGER PRIMARY KEY AUTOINCREMENT` assigns to a new
row of a table the rowid `length + 1`, and `SELECT last_insert_rowid()`
returns the rowid assigned by the most recent insert on the connection
(`lastRowid`, 0 before any insert).  Child-table rowids are generated the
same way but never observed by the program, so child rows carry only the
inserted columns.

A missing dictionary key (`transformed_data['job']`, ... lines 148-153)
raises `KeyError`; the six lookups all happen before the first INSERT of the
record, and an uncaught `KeyError` aborts the loop, leaving earlier records'
rows committed. -/

structure JobRow where
  id : Nat
  title : String
  industry : String
  description : String
  employment_type : String
  date_posted : String
deriving DecidableEq

structure CompanyRow where
  job_id : Nat
  name : String
  link : String
deriving DecidableEq

structure EducationRow where
  job_id : Nat
  required_credential : String
deriving DecidableEq

structure ExperienceRow where
  job_id : Nat
  months_of_experience : String
  seniority_level : String
deriving DecidableEq

structure SalaryRow where
  job_id : Nat
  currency : String
  min_value : String
  max_value : String
  unit : String
deriving DecidableEq

structure LocationRow where
  job_id : Nat
  country : String
  locality : String
  region : String
  postal_code : String
  street_address : String
  latitude : String
  longitude : String
deriving DecidableEq

structure DB where
  job : List JobRow
  company : List CompanyRow
  education : List EducationRow
  experience : List ExperienceRow
  salary : List SalaryRow
  location : List LocationRow
  lastRowid : Nat
deriving DecidableEq

def dbEmpty : DB :=
  { job := [], company := [], education := [], experience := [], salary := [],
    location := [], lastRowid := 0 }

/-- The row the `INSERT INTO job` statement commits, with its generated id. -/
def jobRowOf (id : Nat) (j : JobSection) : JobRow :=
  { id := id, title := j.title, industry := j.industry, description := j.description,
    employment_type := j.employment_type, date_posted := j.date_posted }

def companyRowOf (jid : Nat) (c : CompanySection) : CompanyRow :=
  { job_id := jid, name := c.name, link := c.link }

def educationRowOf (jid : Nat) (e : EducationSection) : EducationRow :=
  { job_id := jid, required_credential := e.required_credential }

def experienceRowOf (jid : Nat) (x : ExperienceSection) : ExperienceRow :=
  { job_id := jid, months_of_experience := x.months_of_experience,
    seniority_level := x.seniority_level }

def salaryRowOf (jid : Nat) (s : SalarySection) : SalaryRow :=
  { job_id := jid, currency := s.currency, min_value := s.min_value,
    max_value := s.max_value, unit := s.unit }

def locationRowOf (jid : Nat) (l : LocationSection) : LocationRow :=
  { job_id := jid, country := l.country, locality := l.locality, region := l.region,
    postal_code := l.postal_code, street_address := l.street_address,
    latitude := l.latitude, longitude := l.longitude }

def insertJob (db : DB) (j : JobSection) : DB :=
  { db with job := db.job ++ [jobRowOf (db.job.length + 1) j],
            lastRowid := db.job.length + 1 }

def insertCompany (db : DB) (jid : Nat) (c : CompanySection) : DB :=
  { db with company := db.company ++ [companyRowOf jid c],
            lastRowid := db.company.length + 1 }

def insertEducation (db : DB) (jid : Nat) (e : EducationSection) : DB :=
  { db with education := db.education ++ [educationRowOf jid e],
            lastRowid := db.education.length + 1 }

def insertExperience (db : DB) (jid : Nat) (x : ExperienceSection) : DB :=
  { db with experience := db.experience ++ [experienceRowOf jid x],
            lastRowid := db.experience.length + 1 }

def insertSalary (db : DB) (jid : Nat) (s : SalarySection) : DB :=
  { db with salary := db.salary ++ [salaryRowOf jid s],
            lastRowid := db.salary.length + 1 }

def insertLocation (db : DB) (jid : Nat) (l : LocationSection) : DB :=
  { db with location := db.location ++ [locationRowOf jid l],
            lastRowid := db.location.length + 1 }

/-- `SELECT last_insert_rowid()` read through `sqlite_hook.get_first`. -/
def last_insert_rowid (db : DB) : Nat :=
  db.lastRowid

/-- The sink statements `load` executes, in execution order, with the value
`last_insert_rowid()` returned recorded on its retrieval. -/
inductive SinkOp where
  | insertJobOp (j : JobSection)
  | getLastIdOp (result : Nat)
  | insertCompanyOp (job_id : Nat) (c : CompanySection)
  | insertEducationOp (job_id : Nat) (e : EducationSection)
  | insertExperienceOp (job_id : Nat) (x : ExperienceSection)
  | insertSalaryOp (job_id : Nat) (s : SalarySection)
  | insertLocationOp (job_id : Nat) (l : LocationSection)
deriving DecidableEq

inductive LoadError where
  | RecordShapeError
deriving DecidableEq

/-- The body of `load`'s loop for one artifact (lines 144-185): the six
section lookups in source order (`KeyError` on the first absent one), then
the parent INSERT, the id retrieval, and the five child INSERTs in the fixed
source order, each child keyed by the retrieved id. -/
def loadOne (db : DB) (a : RecordArtifact) : Except LoadError (DB × List SinkOp) :=
  match a.job with
  | none => Except.error LoadError.RecordShapeError
  | some jd =>
  match a.company with
  | none => Except.error LoadError.RecordShapeError
  | some cd =>
  match a.education with
  | none => Except.error LoadError.RecordShapeError
  | some ed =>
  match a.experience with
  | none => Except.error LoadError.RecordShapeError
  | some xd =>
  match a.salary with
  | none => Except.error LoadError.RecordShapeError
  | some sd =>
  match a.location with
  | none => Except.error LoadError.RecordShapeError
  | some ld =>
    let db1 := insertJob db jd
    let jobId := last_insert_rowid db1
    let db2 := insertCompany db1 jobId cd
    let db3 := insertEducation db2 jobId ed
    let db4 := insertExperience db3 jobId xd
    let db5 := insertSalary db4 jobId sd
    let db6 := insertLocation db5 jobId ld
    Except.ok (db6,
      [SinkOp.insertJobOp jd, SinkOp.getLastIdOp jobId,
       SinkOp.insertCompanyOp jobId cd, SinkOp.insertEducationOp jobId ed,
       SinkOp.insertExperienceOp jobId xd, SinkOp.insertSalaryOp jobId sd,
       SinkOp.insertLocationOp jobId ld])

structure LoadResult where
  db : DB
  trace : List SinkOp
  error : Option LoadError
deriving DecidableEq

/-- `load` (lines 139-186): process the structured artifacts in order; an
uncaught `KeyError` aborts the whole loop at the first malformed artifact,
with everything already inserted left committed. -/
def load (db : DB) : List RecordArtifact → LoadResult
  | [] => { db := db, trace := [], error := none }
  | a :: rest =>
    match loadOne db a with
    | Except.error e => { db := db, trace := [], error := some e }
    | Except.ok (db', ops) =>
      let r := load db' rest
      { db := r.db, trace := ops ++ r.trace, error := r.error }

/-- The seven sink operations `load` performs for one record whose parent
insert was assigned identifier `jobId`. -/
def loadRecordOps (jobId : Nat) (r : Record) : List SinkOp :=
  [SinkOp.insertJobOp r.job, SinkOp.getLastIdOp jobId,
   SinkOp.insertCompanyOp jobId r.company, SinkOp.insertEducationOp jobId r.education,
   SinkOp.insertExperienceOp jobId r.experience, SinkOp.insertSalaryOp jobId r.salary,
   SinkOp.insertLocationOp jobId r.location]

/-- The net effect on the sink of one successful iteration of `load`'s loop:
the parent row committed with the generated id `db.job.length + 1`, and one
row in each child table carrying that id. -/
def dbStep (db : DB) (r : Record) : DB :=
  { job := db.job ++ [jobRowOf (db.job.length + 1) r.job],
    company := db.company ++ [companyRowOf (db.job.length + 1) r.company],
    education := db.education ++ [educationRowOf (db.job.length + 1) r.education],
    experience := db.experience ++ [experienceRowOf (db.job.length + 1) r.experience],
    salary := db.salary ++ [salaryRowOf (db.job.length + 1) r.salary],
    location := db.location ++ [locationRowOf (db.job.length + 1) r.location],
    lastRowid := db.location.length + 1 }

/-- A concrete fully populated record, as `transform` would emit for the
artifact content `"Hello   world"`. -/
def sampleRecord : Record :=
  transformRecord "Hello   world"

/-- A concrete malformed structured artifact: its `salary` section is absent. -/
def sampleBadArtifact : RecordArtifact :=
  { job := some (sampleRecord.job), company := some (sampleRecord.company),
    education := some (sampleRecord.education),
    experience := some (sampleRecord.experience), salary := none,
    location := some (sampleRecord.location) }

end Etl

namespace Etl

/-! ## Lemmas about whitespace normalisation -/

theorem isWS_space : isWS ' ' = true := rfl

theorem dropWhile_isWS_idem (l : List Char) :
    (l.dropWhile isWS).dropWhile isWS = l.dropWhile isWS := by
  induction l with
  | nil => rfl
  | cons c rest ih =>
    by_cases hc : isWS c
    · simp [List.dropWhile, hc, ih]
    · simp [List.dropWhile, hc]

theorem collapseAux_true_eq (l : List Char) :
    collapseAux true l = collapseAux false (l.dropWhile isWS) := by
  induction l with
  | nil => rfl
  | cons c rest ih =>
    by_cases hc : isWS c
    · simp [collapseAux, List.dropWhile, hc, ih]
    · simp [collapseAux, List.dropWhile, hc]

theorem collapseAux_dropWhile (l : List Char) :
    collapseAux false (l.dropWhile isWS) = (collapseAux false l).dropWhile isWS := by
  induction l with
  | nil => rfl
  | cons c rest ih =>
    by_cases hc : isWS c
    · have h1 : (c :: rest).dropWhile isWS = rest.dropWhile isWS := by
        simp [List.dropWhile, hc]
      have h2 : collapseAux false (c :: rest) = ' ' :: collapseAux true rest := by
        simp [collapseAux, hc]
      have h3 : (' ' :: collapseAux true rest).dropWhile isWS
          = (collapseAux true rest).dropWhile isWS := by
        simp [List.dropWhile, isWS_space]
      rw [h1, h2, h3, collapseAux_true_eq, ih, dropWhile_isWS_idem]
    · have h1 : (c :: rest).dropWhile isWS = c :: rest := by
        simp [List.dropWhile, hc]
      have h2 : collapseAux false (c :: rest) = c :: collapseAux false rest := by
        simp [collapseAux, hc]
      rw [h1, h2]
      simp [List.dropWhile, hc]

theorem collapseAux_all_isWS (l : List Char) :
    ∀ b, ((collapseAux b l).all isWS) = (l.all isWS) := by
  induction l with
  | nil => intro b; rfl
  | cons c rest ih =>
    intro b
    by_cases hc : isWS c
    · cases b
      · have h2 : collapseAux false (c :: rest) = ' ' :: collapseAux true rest := by
          simp [collapseAux, hc]
        rw [h2, List.all_cons, List.all_cons, ih true, hc, isWS_space]
      · have h2 : collapseAux true (c :: rest) = collapseAux true rest := by
          simp [collapseAux, hc]
        rw [h2, ih true, List.all_cons, hc, Bool.true_and]
    · have h2 : collapseAux b (c :: rest) = c :: collapseAux false rest := by
        cases b <;> simp [collapseAux, hc]
      rw [h2, List.all_cons, List.all_cons, ih false]

theorem collapseAux_true_of_all (l : List Char) (h : l.all isWS = true) :
    collapseAux true l = [] := by
  induction l with
  | nil => rfl
  | cons c rest ih =>
    simp only [List.all_cons, Bool.and_eq_true] at h
    simp [collapseAux, h.1, ih h.2]

theorem stripTrail_eq_nil_iff (l : List Char) :
    stripTrail l = [] ↔ l.all isWS = true := by
  induction l with
  | nil => simp [stripTrail]
  | cons c rest ih =>
    constructor
    · intro h
      by_cases hc : isWS c
      · by_cases hr : (stripTrail rest).isEmpty
        · rw [List.isEmpty_iff] at hr
          simp [List.all_cons, hc, ih.mp hr]
        · exfalso
          simp [stripTrail, hc, hr] at h
      · exfalso
        simp [stripTrail, hc] at h
    · intro h
      simp only [List.all_cons, Bool.and_eq_true] at h
      have hr : stripTrail rest = [] := ih.mpr h.2
      simp [stripTrail, h.1, hr]

theorem collapseAux_stripTrail (l : List Char) :
    ∀ b, collapseAux b (stripTrail l) = stripTrail (collapseAux b l) := by
  induction l with
  | nil => intro b; rfl
  | cons c rest ih =>
    intro b
    by_cases hc : isWS c
    · by_cases hr : stripTrail rest = []
      · have hall : rest.all isWS = true := (stripTrail_eq_nil_iff rest).mp hr
        have hct : collapseAux true rest = [] := collapseAux_true_of_all rest hall
        have h1 : stripTrail (c :: rest) = [] := by
          simp [stripTrail, hc, hr]
        rw [h1]
        cases b
        · have h2 : collapseAux false (c :: rest) = [' '] := by
            simp [collapseAux, hc, hct]
          rw [h2]
          simp [collapseAux, stripTrail, isWS_space]
        · have h2 : collapseAux true (c :: rest) = [] := by
            simp [collapseAux, hc, hct]
          rw [h2]
          rfl
      · have h1 : stripTrail (c :: rest) = c :: stripTrail rest := by
          simp [stripTrail, hc, hr]
        have hr2 : stripTrail (collapseAux true rest) ≠ [] := by
          intro hcon
          have h3 := (stripTrail_eq_nil_iff _).mp hcon
          rw [collapseAux_all_isWS rest true] at h3
          exact hr ((stripTrail_eq_nil_iff rest).mpr h3)
        have h5 : (stripTrail (collapseAux true rest)).isEmpty = false := by
          cases hx : stripTrail (collapseAux true rest) with
          | nil => exact absurd hx hr2
          | cons a t => rfl
        rw [h1]
        cases b
        · have h2 : collapseAux false (c :: stripTrail rest)
              = ' ' :: collapseAux true (stripTrail rest) := by
            simp [collapseAux, hc]
          have h3 : collapseAux false (c :: rest) = ' ' :: collapseAux true rest := by
            simp [collapseAux, hc]
          rw [h2, h3, ih true]
          have h6 : stripTrail (' ' :: collapseAux true rest)
              = ' ' :: stripTrail (collapseAux true rest) := by
            simp [stripTrail, isWS_space, h5]
          rw [h6]
        · have h2 : collapseAux true (c :: stripTrail rest)
              = collapseAux true (stripTrail rest) := by
            simp [collapseAux, hc]
          have h3 : collapseAux true (c :: rest) = collapseAux true rest := by
            simp [collapseAux, hc]
          rw [h2, h3, ih true]
    · have h1 : stripTrail (c :: rest) = c :: stripTrail rest := by
        simp [stripTrail, hc]
      have h2 : collapseAux b (c :: stripTrail rest)
          = c :: collapseAux false (stripTrail rest) := by
        cases b <;> simp [collapseAux, hc]
      have h3 : collapseAux b (c :: rest) = c :: collapseAux false rest := by
        cases b <;> simp [collapseAux, hc]
      rw [h1, h2, h3, ih false]
      have h4 : stripTrail (c :: collapseAux false rest)
          = c :: stripTrail (collapseAux false rest) := by
        simp [stripTrail, hc]
      rw [h4]

theorem clean_eq_spec (l : List Char) : clean_description l = specClean l := by
  unfold clean_description specClean stripWS collapseWS
  rw [collapseAux_stripTrail, collapseAux_dropWhile]

theorem headOkay_collapseAux_true (l : List Char) :
    headOkay (collapseAux true l) = true := by
  induction l with
  | nil => rfl
  | cons c rest ih =>
    by_cases hc : isWS c
    · have h2 : collapseAux true (c :: rest) = collapseAux true rest := by
        simp [collapseAux, hc]
      rw [h2]; exact ih
    · have h2 : collapseAux true (c :: rest) = c :: collapseAux false rest := by
        simp [collapseAux, hc]
      rw [h2]; simp [headOkay, hc]

theorem collapsed_collapseAux (l : List Char) :
    ∀ b, collapsed (collapseAux b l) = true := by
  induction l with
  | nil => intro b; rfl
  | cons c rest ih =>
    intro b
    by_cases hc : isWS c
    · cases b
      · have h2 : collapseAux false (c :: rest) = ' ' :: collapseAux true rest := by
          simp [collapseAux, hc]
        rw [h2]
        simp [collapsed, isWS_space, headOkay_collapseAux_true rest, ih true]
      · have h2 : collapseAux true (c :: rest) = collapseAux true rest := by
          simp [collapseAux, hc]
        rw [h2]; exact ih true
    · have h2 : collapseAux b (c :: rest) = c :: collapseAux false rest := by
        cases b <;> simp [collapseAux, hc]
      rw [h2]
      simp [collapsed, hc, ih false]

theorem collapseAux_false_of_collapsed (l : List Char) (h : collapsed l = true) :
    collapseAux false l = l := by
  induction l with
  | nil => rfl
  | cons c rest ih =>
    by_cases hc : isWS c
    · simp only [collapsed, hc, Bool.not_true, Bool.false_or, Bool.and_eq_true] at h
      obtain ⟨h1, h2⟩ := h
      have hcq : c = ' ' := eq_of_beq h1.1
      subst hcq
      have h3 : collapseAux false (' ' :: rest) = ' ' :: collapseAux true rest := by
        simp [collapseAux, isWS_space]
      rw [h3]
      congr 1
      cases rest with
      | nil => rfl
      | cons d rest2 =>
        have hd : isWS d = false := by
          have h7 := h1.2
          simp [headOkay] at h7
          exact h7
        have h4 : collapseAux true (d :: rest2) = d :: collapseAux false rest2 := by
          simp [collapseAux, hd]
        have h5 : collapseAux false (d :: rest2) = d :: collapseAux false rest2 := by
          simp [collapseAux, hd]
        have h6 := ih h2
        rw [h5] at h6
        rw [h4]
        exact h6
    · simp only [collapsed, hc, Bool.not_false, Bool.true_or, Bool.true_and] at h
      have h2 : collapseAux false (c :: rest) = c :: collapseAux false rest := by
        simp [collapseAux, hc]
      rw [h2, ih h]

theorem stripTrail_idem (l : List Char) :
    stripTrail (stripTrail l) = stripTrail l := by
  induction l with
  | nil => rfl
  | cons c rest ih =>
    by_cases hcond : (isWS c && (stripTrail rest).isEmpty) = true
    · have h1 : stripTrail (c :: rest) = [] := by
        simp [stripTrail, hcond]
      rw [h1]; rfl
    · have hcond' : (isWS c && (stripTrail rest).isEmpty) = false := by
        revert hcond
        cases isWS c && (stripTrail rest).isEmpty <;> simp
      have h1 : stripTrail (c :: rest) = c :: stripTrail rest := by
        simp [stripTrail, hcond']
      rw [h1]
      simp [stripTrail, ih, hcond']

theorem headOkay_dropWhile (l : List Char) :
    headOkay (l.dropWhile isWS) = true := by
  induction l with
  | nil => rfl
  | cons c rest ih =>
    by_cases hc : isWS c
    · simp only [List.dropWhile, hc, if_pos]
      exact ih
    · simp [List.dropWhile, hc, headOkay]

theorem headOkay_stripTrail (l : List Char) (h : headOkay l = true) :
    headOkay (stripTrail l) = true := by
  cases l with
  | nil => rfl
  | cons c rest =>
    have hc : isWS c = false := by
      simp [headOkay] at h
      exact h
    have h1 : stripTrail (c :: rest) = c :: stripTrail rest := by
      simp [stripTrail, hc]
    rw [h1]
    simp [headOkay, hc]

theorem headOkay_collapseAux_false (l : List Char) (h : headOkay l = true) :
    headOkay (collapseAux false l) = true := by
  cases l with
  | nil => rfl
  | cons c rest =>
    have hc : isWS c = false := by
      simp [headOkay] at h
      exact h
    have h1 : collapseAux false (c :: rest) = c :: collapseAux false rest := by
      simp [collapseAux, hc]
    rw [h1]
    simp [headOkay, hc]

theorem dropWhile_eq_self_of_headOkay (l : List Char) (h : headOkay l = true) :
    l.dropWhile isWS = l := by
  cases l with
  | nil => rfl
  | cons c rest =>
    have hc : isWS c = false := by
      simp [headOkay] at h
      exact h
    simp [List.dropWhile, hc]

theorem clean_description_idem (l : List Char) :
    clean_description (clean_description l) = clean_description l := by
  have hok : headOkay (clean_description l) = true := by
    unfold clean_description collapseWS stripWS
    exact headOkay_collapseAux_false _ (headOkay_stripTrail _ (headOkay_dropWhile l))
  have hdrop : (clean_description l).dropWhile isWS = clean_description l :=
    dropWhile_eq_self_of_headOkay _ hok
  have hstrip : stripTrail (clean_description l) = clean_description l := by
    unfold clean_description collapseWS stripWS
    rw [← collapseAux_stripTrail, stripTrail_idem]
  have hcoll : collapseAux false (clean_description l) = clean_description l := by
    apply collapseAux_false_of_collapsed
    exact collapsed_collapseAux _ false
  show collapseAux false (stripTrail ((clean_description l).dropWhile isWS))
      = clean_description l
  rw [hdrop, hstrip, hcoll]

theorem clean_description_of_all_isWS (l : List Char) (h : l.all isWS = true) :
    clean_description l = [] := by
  unfold clean_description collapseWS stripWS
  have h1 : l.dropWhile isWS = [] := by
    rw [List.dropWhile_eq_nil_iff]
    intro x hx
    exact List.all_eq_true.mp h x hx
  rw [h1]
  rfl

/-! ## Lemmas about the Schema Manager -/

theorem hasTable_createTableIfNotExists (s : Schema) (t : TableDef) (n : String)
    (h : hasTable s n = true) :
    hasTable (createTableIfNotExists s t) n = true := by
  unfold createTableIfNotExists
  by_cases ht : hasTable s t.name
  · simp [ht, h]
  · simp only [ht, if_neg, Bool.false_eq_true, not_false_eq_true]
    unfold hasTable at h ⊢
    simp [List.any_append, h]

theorem hasTable_createTableIfNotExists_self (s : Schema) (t : TableDef) :
    hasTable (createTableIfNotExists s t) t.name = true := by
  unfold createTableIfNotExists
  by_cases ht : hasTable s t.name
  · simp [ht]
  · simp only [ht, if_neg, Bool.false_eq_true, not_false_eq_true]
    simp [hasTable, List.any_append]

theorem hasTable_foldl_mono (qs : List TableDef) : ∀ (s : Schema) (n : String),
    hasTable s n = true →
    hasTable (qs.foldl createTableIfNotExists s) n = true := by
  induction qs with
  | nil => intro s n h; exact h
  | cons q rest ih =>
    intro s n h
    exact ih _ _ (hasTable_createTableIfNotExists s q n h)

theorem hasTable_foldl_mem (qs : List TableDef) : ∀ (s : Schema) (t : TableDef),
    t ∈ qs → hasTable (qs.foldl createTableIfNotExists s) t.name = true := by
  induction qs with
  | nil => intro s t h; cases h
  | cons q rest ih =>
    intro s t h
    cases h with
    | head => exact hasTable_foldl_mono rest _ _ (hasTable_createTableIfNotExists_self s q)
    | tail _ h2 => exact ih _ _ h2

theorem foldl_create_noop (qs : List TableDef) : ∀ s : Schema,
    (∀ t ∈ qs, hasTable s t.name = true) →
    qs.foldl createTableIfNotExists s = s := by
  induction qs with
  | nil => intro s _; rfl
  | cons q rest ih =>
    intro s h
    have hq : createTableIfNotExists s q = s := by
      unfold createTableIfNotExists
      simp [h q (List.mem_cons_self q rest)]
    rw [List.foldl_cons, hq]
    exact ih s (fun t ht => h t (List.mem_cons_of_mem q ht))

theorem create_tables_idem (s : Schema) :
    create_tables (create_tables s) = create_tables s := by
  unfold create_tables
  apply foldl_create_noop
  intro t ht
  exact hasTable_foldl_mem TABLE_CREATION_QUERIES s t ht

theorem nodup_createTableIfNotExists (s : Schema) (t : TableDef)
    (h : (s.map TableDef.name).Nodup) :
    ((createTableIfNotExists s t).map TableDef.name).Nodup := by
  unfold createTableIfNotExists
  by_cases ht : hasTable s t.name
  · simp [ht, h]
  · simp only [ht, if_neg, Bool.false_eq_true, not_false_eq_true, List.map_append]
    rw [List.nodup_append]
    refine ⟨h, List.nodup_singleton _, ?_⟩
    intro a ha hb
    simp only [List.map_cons, List.map_nil, List.mem_singleton] at hb
    subst hb
    obtain ⟨u, hu, hname⟩ := List.mem_map.mp ha
    have hx : hasTable s t.name = true := by
      unfold hasTable
      rw [List.any_eq_true]
      refine ⟨u, hu, ?_⟩
      rw [hname]
      exact beq_self_eq_true _
    simp [hx] at ht

theorem nodup_foldl_create (qs : List TableDef) : ∀ s : Schema,
    (s.map TableDef.name).Nodup →
    ((qs.foldl createTableIfNotExists s).map TableDef.name).Nodup := by
  induction qs with
  | nil => intro s h; exact h
  | cons q rest ih =>
    intro s h
    exact ih _ (nodup_createTableIfNotExists s q h)

/-! ## Lemmas about the Extractor -/

theorem extractLoop_written (rows : List Row) : ∀ (fs : FS) (i : Nat),
    (extractLoop fs i rows).2
      = (List.enumFrom i rows).map
          (fun p => (jobTxtPath p.1, coerceContext (rowGet p.2 "context" (Cell.str "")))) := by
  induction rows with
  | nil => intro fs i; rfl
  | cons row rest ih =>
    intro fs i
    simp [extractLoop, List.enumFrom, ih]

theorem extract_written (rows : List Row) (fs : FS) :
    (extract (some rows) fs).written
      = rows.enum.map
          (fun p => (jobTxtPath p.1, coerceContext (rowGet p.2 "context" (Cell.str "")))) := by
  show (extractLoop (makedirs fs extracted_dir) 0 rows).2 = _
  rw [extractLoop_written]
  rfl

theorem extractLoop_dirs (rows : List Row) : ∀ (fs : FS) (i : Nat),
    (extractLoop fs i rows).1.dirs = fs.dirs := by
  induction rows with
  | nil => intro fs i; rfl
  | cons row rest ih =>
    intro fs i
    simp [extractLoop, ih]

theorem makedirs_contains (fs : FS) (d : String) :
    (makedirs fs d).dirs.contains d = true := by
  unfold makedirs
  split
  · assumption
  · simp

theorem makedirs_files (fs : FS) (d : String) : (makedirs fs d).files = fs.files := by
  unfold makedirs
  split <;> rfl

/-! ## Lemmas about the Loader -/

theorem loadOne_toArtifact (db : DB) (r : Record) :
    loadOne db (Record.toArtifact r)
      = Except.ok (dbStep db r, loadRecordOps (db.job.length + 1) r) := rfl

theorem dbStep_job_length (db : DB) (r : Record) :
    (dbStep db r).job.length = db.job.length + 1 := by
  simp [dbStep]

theorem load_components (recs : List Record) : ∀ db : DB,
    (load db (recs.map Record.toArtifact)).error = none ∧
    (load db (recs.map Record.toArtifact)).trace
      = (List.enumFrom db.job.length recs).flatMap (fun p => loadRecordOps (p.1 + 1) p.2) ∧
    (load db (recs.map Record.toArtifact)).db.job
      = db.job ++ (List.enumFrom db.job.length recs).map (fun p => jobRowOf (p.1 + 1) p.2.job) ∧
    (load db (recs.map Record.toArtifact)).db.company
      = db.company
          ++ (List.enumFrom db.job.length recs).map (fun p => companyRowOf (p.1 + 1) p.2.company) ∧
    (load db (recs.map Record.toArtifact)).db.education
      = db.education
          ++ (List.enumFrom db.job.length recs).map (fun p => educationRowOf (p.1 + 1) p.2.education) ∧
    (load db (recs.map Record.toArtifact)).db.experience
      = db.experience
          ++ (List.enumFrom db.job.length recs).map (fun p => experienceRowOf (p.1 + 1) p.2.experience) ∧
    (load db (recs.map Record.toArtifact)).db.salary
      = db.salary
          ++ (List.enumFrom db.job.length recs).map (fun p => salaryRowOf (p.1 + 1) p.2.salary) ∧
    (load db (recs.map Record.toArtifact)).db.location
      = db.location
          ++ (List.enumFrom db.job.length recs).map (fun p => locationRowOf (p.1 + 1) p.2.location) := by
  induction recs with
  | nil =>
    intro db
    simp [load, List.enumFrom]
  | cons r rest ih =>
    intro db
    obtain ⟨ih1, ih2, ih3, ih4, ih5, ih6, ih7, ih8⟩ := ih (dbStep db r)
    rw [dbStep_job_length] at ih2 ih3 ih4 ih5 ih6 ih7 ih8
    refine ⟨?_, ?_, ?_, ?_, ?_, ?_, ?_, ?_⟩
    · simp [load, loadOne_toArtifact, ih1]
    · simp only [List.map_cons, load, loadOne_toArtifact, List.enumFrom, List.flatMap_cons]
      rw [ih2]
    · simp only [List.map_cons, load, loadOne_toArtifact, List.enumFrom, List.map_cons]
      rw [ih3]
      simp [dbStep, List.append_assoc]
    · simp only [List.map_cons, load, loadOne_toArtifact, List.enumFrom, List.map_cons]
      rw [ih4]
      simp [dbStep, List.append_assoc]
    · simp only [List.map_cons, load, loadOne_toArtifact, List.enumFrom, List.map_cons]
      rw [ih5]
      simp [dbStep, List.append_assoc]
    · simp only [List.map_cons, load, loadOne_toArtifact, List.enumFrom, List.map_cons]
      rw [ih6]
      simp [dbStep, List.append_assoc]
    · simp only [List.map_cons, load, loadOne_toArtifact, List.enumFrom, List.map_cons]
      rw [ih7]
      simp [dbStep, List.append_assoc]
    · simp only [List.map_cons, load, loadOne_toArtifact, List.enumFrom, List.map_cons]
      rw [ih8]
      simp [dbStep, List.append_assoc]

theorem loadOne_error_of_not_wellFormed (db : DB) (a : RecordArtifact)
    (h : wellFormed a = false) :
    loadOne db a = Except.error LoadError.RecordShapeError := by
  unfold wellFormed at h
  unfold loadOne
  cases hj : a.job with
  | none => rfl
  | some jd =>
    cases hc : a.company with
    | none => rfl
    | some cd =>
      cases he : a.education with
      | none => rfl
      | some ed =>
        cases hx : a.experience with
        | none => rfl
        | some xd =>
          cases hs : a.salary with
          | none => rfl
          | some sd =>
            cases hl : a.location with
            | none => rfl
            | some ld =>
              rw [hj, hc, he, hx, hs, hl] at h
              simp at h

theorem load_append (recs : List Record) : ∀ (db : DB) (ys : List RecordArtifact),
    load db (recs.map Record.toArtifact ++ ys)
      = { db := (load (load db (recs.map Record.toArtifact)).db ys).db,
          trace := (load db (recs.map Record.toArtifact)).trace
                     ++ (load (load db (recs.map Record.toArtifact)).db ys).trace,
          error := (load (load db (recs.map Record.toArtifact)).db ys).error } := by
  induction recs with
  | nil =>
    intro db ys
    simp [load]
  | cons r rest ih =>
    intro db ys
    simp only [List.map_cons, List.cons_append, load, loadOne_toArtifact]
    simp only [List.append_eq]
    rw [ih]
    simp [List.append_assoc]

theorem countP_enumFrom_succ_eq_zero {α : Type} (l : List α) : ∀ (n k : Nat), k < n →
    (List.enumFrom n l).countP (fun p => p.1 + 1 == k + 1) = 0 := by
  induction l with
  | nil => intro n k _; rfl
  | cons x xs ih =>
    intro n k hk
    have hne : (n + 1 == k + 1) = false := by
      simp
      omega
    have hstep : List.enumFrom n (x :: xs) = (n, x) :: List.enumFrom (n + 1) xs := rfl
    rw [hstep, List.countP_cons, ih (n + 1) k (Nat.lt_succ_of_lt hk)]
    simp [hne]

theorem countP_enumFrom_succ_eq_one {α : Type} (l : List α) :
    ∀ (n k : Nat), n ≤ k → k < n + l.length →
    (List.enumFrom n l).countP (fun p => p.1 + 1 == k + 1) = 1 := by
  induction l with
  | nil =>
    intro n k h1 h2
    simp at h2
    omega
  | cons x xs ih =>
    intro n k h1 h2
    have hstep : List.enumFrom n (x :: xs) = (n, x) :: List.enumFrom (n + 1) xs := rfl
    by_cases hnk : n = k
    · subst hnk
      rw [hstep, List.countP_cons,
        countP_enumFrom_succ_eq_zero xs (n + 1) n (Nat.lt_succ_self n)]
      simp
    · have hlt : n < k := Nat.lt_of_le_of_ne h1 hnk
      have hne : (n + 1 == k + 1) = false := by
        simp
        omega
      have h2' : k < (n + 1) + xs.length := by
        rw [List.length_cons] at h2
        omega
      rw [hstep, List.countP_cons, ih (n + 1) k hlt h2']
      simp [hne]

theorem map_congr_mem {α β : Type} (l : List α) (f g : α → β)
    (h : ∀ a ∈ l, f a = g a) : l.map f = l.map g := by
  induction l with
  | nil => rfl
  | cons x xs ih =>
    simp only [List.map_cons]
    rw [h x (List.mem_cons_self x xs), ih (fun a ha => h a (List.mem_cons_of_mem x ha))]

/-! ## The claims -/

/-- C2: for every input string, `clean_description` returns the string with
every maximal whitespace run replaced by a single space and with leading and
trailing whitespace removed (`specClean`, the specification's reading); in
particular a whitespace-only (or empty) input yields the empty string.  The
function is total on all strings, so no input raises an error. -/
theorem C2_clean_description_normalizes (l : List Char) :
    clean_description l = specClean l ∧
      (l.all isWS = true → clean_description l = []) :=
  ⟨clean_eq_spec l, clean_description_of_all_isWS l⟩

theorem C2_clean_description_normalizes_witness :
    ([' ', '\t', '\n'].all isWS = true) ∧ clean_description [' ', '\t', '\n'] = [] :=
  ⟨by decide, (C2_clean_description_normalizes [' ', '\t', '\n']).2 (by decide)⟩

/-- C3: `clean_description` is idempotent. -/
theorem C3_clean_description_idempotent (l : List Char) :
    clean_description (clean_description l) = clean_description l :=
  clean_description_idem l

/-- C4: for a readable source file, `extract` writes exactly one text artifact
per row, named `job_<index>.txt` from the row's 0-based position, containing
the textual form of the row's `context` value, and reports the row count. -/
theorem C4_extract_one_artifact_per_row (rows : List Row) (fs : FS) :
    (extract (some rows) fs).written
      = rows.enum.map
          (fun p => (jobTxtPath p.1, coerceContext (rowGet p.2 "context" (Cell.str "")))) ∧
    (extract (some rows) fs).written.length = rows.length ∧
    (extract (some rows) fs).rowsReported = some rows.length := by
  have h1 := extract_written rows fs
  refine ⟨h1, ?_, rfl⟩
  rw [h1, List.length_map, List.enum_length]

/-- C5: a missing source file (`pd.read_csv` raising `FileNotFoundError`) is
caught: `extract` writes zero artifacts, leaves the files untouched, and
returns early (no row count reported) instead of propagating the error. -/
theorem C5_extract_missing_source_soft_fail (fs : FS) :
    (extract none fs).written = [] ∧
    (extract none fs).fs.files = fs.files ∧
    (extract none fs).rowsReported = none := by
  refine ⟨rfl, ?_, rfl⟩
  show (makedirs fs extracted_dir).files = fs.files
  exact makedirs_files fs extracted_dir

/-- C6: the Extract-then-Transform path is total: every cell's `context`
value is first coerced to its textual representation, the transformer is
applied to exactly those coerced strings, and its `description` field is the
normalisation of the string it received. -/
theorem C6_extract_transform_total_coercion (rows : List Row) (fs : FS) :
    ((extract (some rows) fs).written.map (fun p => transformRecord p.2))
      = rows.map
          (fun row => transformRecord (coerceContext (rowGet row "context" (Cell.str "")))) ∧
    (∀ text, coerceContext (Cell.other text) = text) ∧
    (∀ s, (transformRecord s).job.description = clean_descriptionStr s) := by
  refine ⟨?_, fun text => rfl, fun s => rfl⟩
  rw [extract_written, List.map_map]
  rw [show ((fun p : String × String => transformRecord p.2)
        ∘ (fun p : Nat × Row =>
            (jobTxtPath p.1, coerceContext (rowGet p.2 "context" (Cell.str "")))))
      = (fun row => transformRecord (coerceContext (rowGet row "context" (Cell.str ""))))
        ∘ Prod.snd from rfl]
  rw [← List.map_map, List.enum_map_snd]

/-- C7: `create_tables` is idempotent on the sink schema: a second run (and
any further run) leaves the schema unchanged, and runs never introduce a
duplicate table name.  Every statement is `CREATE TABLE IF NOT EXISTS`, so
no run raises an error (the model is a total function). -/
theorem C7_create_tables_idempotent (s : Schema) :
    create_tables (create_tables s) = create_tables s ∧
      ((s.map TableDef.name).Nodup → ((create_tables s).map TableDef.name).Nodup) :=
  ⟨create_tables_idem s, nodup_foldl_create TABLE_CREATION_QUERIES s⟩

theorem C7_create_tables_idempotent_witness :
    create_tables (create_tables []) = create_tables [] ∧
      ((create_tables ([] : Schema)).map TableDef.name).Nodup :=
  ⟨(C7_create_tables_idempotent []).1,
   (C7_create_tables_idempotent []).2 (by simp)⟩

/-- C9: `extract` creates the staging directory before reading the source, so
the directory exists afterwards even on the missing-source path; and
`os.makedirs(..., exist_ok=True)` on an existing directory is a no-op rather
than an error. -/
theorem C9_extract_creates_dir (source : Option (List Row)) (fs : FS) :
    (extract source fs).fs.dirs.contains extracted_dir = true ∧
      (∀ d, fs.dirs.contains d = true → makedirs fs d = fs) := by
  constructor
  · cases source with
    | none => exact makedirs_contains fs extracted_dir
    | some rows =>
      show (extractLoop (makedirs fs extracted_dir) 0 rows).1.dirs.contains
          extracted_dir = true
      rw [extractLoop_dirs]
      exact makedirs_contains fs extracted_dir
  · intro d h
    unfold makedirs
    exact if_pos h

theorem C9_extract_creates_dir_witness :
    ((⟨["staging/extracted"], []⟩ : FS).dirs.contains "staging/extracted" = true) ∧
    (extract none ⟨["staging/extracted"], []⟩).fs.dirs.contains extracted_dir = true ∧
    makedirs ⟨["staging/extracted"], []⟩ "staging/extracted"
      = (⟨["staging/extracted"], []⟩ : FS) :=
  ⟨by decide,
   (C9_extract_creates_dir none ⟨["staging/extracted"], []⟩).1,
   (C9_extract_creates_dir none ⟨["staging/extracted"], []⟩).2 "staging/extracted" (by decide)⟩

/-- C10: when the source rows have no `context` column, `extract` still
writes one artifact per row, each containing the empty string (`row.get`
falls back to its default `''`), with no error. -/
theorem C10_extract_missing_context_column (rows : List Row) (fs : FS)
    (h : ∀ row ∈ rows, row.find? (fun q => q.1 == "context") = none) :
    (extract (some rows) fs).written = rows.enum.map (fun p => (jobTxtPath p.1, "")) ∧
    (extract (some rows) fs).written.length = rows.length := by
  have h1 : (extract (some rows) fs).written
      = rows.enum.map (fun p => (jobTxtPath p.1, "")) := by
    rw [extract_written]
    apply map_congr_mem
    intro p hp
    have hmem : p.2 ∈ rows := by
      have h2 := List.enum_map_snd rows
      rw [← h2]
      exact List.mem_map_of_mem _ hp
    unfold rowGet
    rw [h p.2 hmem]
    rfl
  refine ⟨h1, ?_⟩
  rw [h1, List.length_map, List.enum_length]

theorem C10_extract_missing_context_column_witness :
    (∀ row ∈ [[("title", Cell.str "x")]], row.find? (fun q => q.1 == "context") = none) ∧
    (extract (some [[("title", Cell.str "x")]]) ⟨[], []⟩).written
      = [[("title", Cell.str "x")]].enum.map (fun p => (jobTxtPath p.1, "")) :=
  ⟨by decide,
   (C10_extract_missing_context_column [[("title", Cell.str "x")]] ⟨[], []⟩ (by decide)).1⟩

/-- C1: loading any list of well-formed structured records from an empty sink
succeeds; the sink-operation trace of each record is the parent `job` INSERT
first, then the retrieval of the generated identifier `k + 1` for the
record in position `k`, then one INSERT into each of company, education,
experience, salary and location carrying exactly that identifier (the order
spelled out by `loadRecordOps`); and each child table ends up with exactly
one row whose `job_id` equals each loaded record's identifier. -/
theorem C1_load_parent_first_one_child_row_each (recs : List Record) :
    (load dbEmpty (recs.map Record.toArtifact)).error = none ∧
    (load dbEmpty (recs.map Record.toArtifact)).trace
      = recs.enum.flatMap (fun p => loadRecordOps (p.1 + 1) p.2) ∧
    (load dbEmpty (recs.map Record.toArtifact)).db.job
      = recs.enum.map (fun p => jobRowOf (p.1 + 1) p.2.job) ∧
    (∀ k, k < recs.length →
      (load dbEmpty (recs.map Record.toArtifact)).db.company.countP
          (fun row => row.job_id == k + 1) = 1 ∧
      (load dbEmpty (recs.map Record.toArtifact)).db.education.countP
          (fun row => row.job_id == k + 1) = 1 ∧
      (load dbEmpty (recs.map Record.toArtifact)).db.experience.countP
          (fun row => row.job_id == k + 1) = 1 ∧
      (load dbEmpty (recs.map Record.toArtifact)).db.salary.countP
          (fun row => row.job_id == k + 1) = 1 ∧
      (load dbEmpty (recs.map Record.toArtifact)).db.location.countP
          (fun row => row.job_id == k + 1) = 1) := by
  obtain ⟨h1, h2, h3, h4, h5, h6, h7, h8⟩ := load_components recs dbEmpty
  refine ⟨h1, ?_, ?_, ?_⟩
  · simpa [dbEmpty, List.enum] using h2
  · simpa [dbEmpty, List.enum] using h3
  · intro k hk
    have hk0 : k < 0 + recs.length := by simpa using hk
    refine ⟨?_, ?_, ?_, ?_, ?_⟩
    · rw [h4]
      simp only [dbEmpty, List.nil_append, List.countP_map]
      exact countP_enumFrom_succ_eq_one recs 0 k (Nat.zero_le k) hk0
    · rw [h5]
      simp only [dbEmpty, List.nil_append, List.countP_map]
      exact countP_enumFrom_succ_eq_one recs 0 k (Nat.zero_le k) hk0
    · rw [h6]
      simp only [dbEmpty, List.nil_append, List.countP_map]
      exact countP_enumFrom_succ_eq_one recs 0 k (Nat.zero_le k) hk0
    · rw [h7]
      simp only [dbEmpty, List.nil_append, List.countP_map]
      exact countP_enumFrom_succ_eq_one recs 0 k (Nat.zero_le k) hk0
    · rw [h8]
      simp only [dbEmpty, List.nil_append, List.countP_map]
      exact countP_enumFrom_succ_eq_one recs 0 k (Nat.zero_le k) hk0

theorem C1_load_parent_first_one_child_row_each_witness :
    (0 < [sampleRecord].length) ∧
    (load dbEmpty ([sampleRecord].map Record.toArtifact)).error = none ∧
    (load dbEmpty ([sampleRecord].map Record.toArtifact)).db.company.countP
        (fun row => row.job_id == 0 + 1) = 1 :=
  ⟨by decide,
   (C1_load_parent_first_one_child_row_each [sampleRecord]).1,
   ((C1_load_parent_first_one_child_row_each [sampleRecord]).2.2.2 0 (by decide)).1⟩

/-- C8: the first structured artifact missing one of the six expected
sections makes `load` fail with the record-shape error (`KeyError` on the
missing section) and abort the whole stage there: nothing after the
malformed artifact is processed, and everything committed for the earlier
artifacts is kept — no rollback. -/
theorem C8_load_aborts_on_malformed_artifact (recs : List Record)
    (bad : RecordArtifact) (rest : List RecordArtifact) (db : DB)
    (h : wellFormed bad = false) :
    (load db (recs.map Record.toArtifact ++ bad :: rest)).error
        = some LoadError.RecordShapeError ∧
    (load db (recs.map Record.toArtifact ++ bad :: rest)).db
        = (load db (recs.map Record.toArtifact)).db ∧
    (load db (recs.map Record.toArtifact ++ bad :: rest)).trace
        = (load db (recs.map Record.toArtifact)).trace := by
  have hmid := load_append recs db (bad :: rest)
  have herr : load (load db (recs.map Record.toArtifact)).db (bad :: rest)
      = { db := (load db (recs.map Record.toArtifact)).db, trace := [],
          error := some LoadError.RecordShapeError } := by
    have h1 := loadOne_error_of_not_wellFormed
      (load db (recs.map Record.toArtifact)).db bad h
    simp [load, h1]
  rw [hmid, herr]
  simp

theorem C8_load_aborts_on_malformed_artifact_witness :
    wellFormed sampleBadArtifact = false ∧
    (load dbEmpty ([sampleRecord].map Record.toArtifact ++ [sampleBadArtifact])).error
        = some LoadError.RecordShapeError :=
  ⟨by rfl,
   (C8_load_aborts_on_malformed_artifact [sampleRecord] sampleBadArtifact [] dbEmpty
     (by rfl)).1⟩

end Etl
